import Mathlib

/-!
Verification development for the MonasBoids flocking simulation.

The octree spatial index (`Octree.ts`) is embedded over `ℚ`: the source only
ever compares distances, so every comparison of a Euclidean length `√s` against
a bound `c ≥ 0` is rendered as the equivalent comparison of `s` against `c * c`,
keeping the model fully executable.  The boid physics (`Boid.ts`) is embedded
over `ℝ` with `Real.sqrt`, mirroring the exact-real reading of the numeric code.
-/

/-! ## Rational 3-vectors, boxes and spheres (THREE.js geometry used by the octree) -/

/-- A 3-vector over `ℚ` (positions handled by the octree). -/
structure Vec3Q where
  x : ℚ
  y : ℚ
  z : ℚ
deriving DecidableEq

/-- Squared Euclidean distance: `THREE.Vector3.distanceToSquared`. -/
def dist2 (p q : Vec3Q) : ℚ :=
  (p.x - q.x) * (p.x - q.x) + (p.y - q.y) * (p.y - q.y) + (p.z - q.z) * (p.z - q.z)

/-- Real Euclidean distance `THREE.Vector3.distanceTo`, as the square root of
the rational squared distance. -/
noncomputable def rdist (p q : Vec3Q) : ℝ :=
  Real.sqrt ((dist2 p q : ℚ) : ℝ)

/-- An axis-aligned box, `THREE.Box3` (min/max corners). -/
structure BoxQ where
  lo : Vec3Q
  hi : Vec3Q
deriving DecidableEq

/-- A sphere, `THREE.Sphere` (center + radius). -/
structure SphereQ where
  center : Vec3Q
  radius : ℚ
deriving DecidableEq

/-- Model of `THREE.Box3.containsPoint`: inclusive on all six faces. -/
def containsPoint (b : BoxQ) (p : Vec3Q) : Prop :=
  b.lo.x ≤ p.x ∧ p.x ≤ b.hi.x ∧
  b.lo.y ≤ p.y ∧ p.y ≤ b.hi.y ∧
  b.lo.z ≤ p.z ∧ p.z ≤ b.hi.z

instance (b : BoxQ) (p : Vec3Q) : Decidable (containsPoint b p) := by
  unfold containsPoint; infer_instance

/-- Model of `THREE.MathUtils`-style scalar clamp used by `Box3.clampPoint`. -/
def clampQ (v lo hi : ℚ) : ℚ := max lo (min hi v)

/-- Model of `THREE.Box3.clampPoint`. -/
def clampPoint (b : BoxQ) (p : Vec3Q) : Vec3Q :=
  ⟨clampQ p.x b.lo.x b.hi.x, clampQ p.y b.lo.y b.hi.y, clampQ p.z b.lo.z b.hi.z⟩

/-- Model of `THREE.Box3.intersectsSphere`: clamp the center into the box and compare the
squared distance with the squared radius. -/
def intersectsSphere (b : BoxQ) (s : SphereQ) : Prop :=
  dist2 (clampPoint b s.center) s.center ≤ s.radius * s.radius

instance (b : BoxQ) (s : SphereQ) : Decidable (intersectsSphere b s) := by
  unfold intersectsSphere; infer_instance

/-- Model of `THREE.Sphere.containsPoint`: `distanceToSquared ≤ radius * radius`. -/
def sphereContains (s : SphereQ) (p : Vec3Q) : Prop :=
  dist2 p s.center ≤ s.radius * s.radius

instance (s : SphereQ) (p : Vec3Q) : Decidable (sphereContains s p) := by
  unfold sphereContains; infer_instance

/-! ## The octree (`src/utils/Octree.ts`) -/

/-- A boid as seen by the octree: an identity (JS object identity) plus its
mesh position. -/
structure OBoid where
  oid : ℕ
  pos : Vec3Q
deriving DecidableEq

/-- An octree node: bounds, `children : OctreeNode[] | null`, and the directly
held boids. -/
inductive ONode : Type where
  | mk : BoxQ → Option (List ONode) → List OBoid → ONode

/-- The node's bounds. -/
def ONode.box : ONode → BoxQ
  | .mk b _ _ => b

/-- The node's children (`null` encoded as `none`). -/
def ONode.children : ONode → Option (List ONode)
  | .mk _ c _ => c

/-- The node's directly held boid list. -/
def ONode.heldBoids : ONode → List OBoid
  | .mk _ _ bs => bs

/-- Capacity threshold `maxBoids` of `OctreeNode`. -/
def maxBoids : ℕ := 8

/-- Minimum subdivisible size `minSize` of `OctreeNode`. -/
def minSize : ℚ := 5

/-- Squared length of the box diagonal: the source compares
`bounds.max.sub(bounds.min).length() > minSize`; with both sides nonnegative
this is equivalent to `diag2 > minSize * minSize`. -/
def diag2 (b : BoxQ) : ℚ :=
  (b.hi.x - b.lo.x) * (b.hi.x - b.lo.x) + (b.hi.y - b.lo.y) * (b.hi.y - b.lo.y) +
    (b.hi.z - b.lo.z) * (b.hi.z - b.lo.z)

/-- The `OctreeNode(center, size)` constructor: bounds from a center and a full
extent (`halfSize = size/2`, bounds `[center - halfSize, center + halfSize]`). -/
def nodeBox (center size : Vec3Q) : BoxQ :=
  ⟨⟨center.x - size.x / 2, center.y - size.y / 2, center.z - size.z / 2⟩,
   ⟨center.x + size.x / 2, center.y + size.y / 2, center.z + size.z / 2⟩⟩

/-- The eight child boxes created by `OctreeNode.subdivide`, in loop order
`i = 0..7` (bit 1 → x sign, bit 2 → y sign, bit 4 → z sign).  `size` is the
parent's half extent (`getSize(...).multiplyScalar(0.5)`) and each child is
`new OctreeNode(center ± size, size)` — exactly as in the source, including the
offset being the full half-extent `size` rather than `size/2`. -/
def mkChildren (b : BoxQ) : List ONode :=
  let cx := (b.lo.x + b.hi.x) / 2
  let cy := (b.lo.y + b.hi.y) / 2
  let cz := (b.lo.z + b.hi.z) / 2
  let sx := (b.hi.x - b.lo.x) / 2
  let sy := (b.hi.y - b.lo.y) / 2
  let sz := (b.hi.z - b.lo.z) / 2
  let s : Vec3Q := ⟨sx, sy, sz⟩
  [ .mk (nodeBox ⟨cx - sx, cy - sy, cz - sz⟩ s) none [],
    .mk (nodeBox ⟨cx + sx, cy - sy, cz - sz⟩ s) none [],
    .mk (nodeBox ⟨cx - sx, cy + sy, cz - sz⟩ s) none [],
    .mk (nodeBox ⟨cx + sx, cy + sy, cz - sz⟩ s) none [],
    .mk (nodeBox ⟨cx - sx, cy - sy, cz + sz⟩ s) none [],
    .mk (nodeBox ⟨cx + sx, cy - sy, cz + sz⟩ s) none [],
    .mk (nodeBox ⟨cx - sx, cy + sy, cz + sz⟩ s) none [],
    .mk (nodeBox ⟨cx + sx, cy + sy, cz + sz⟩ s) none [] ]

/-- Model of `OctreeNode.insert`, with a fuel argument bounding the recursion depth
(the source recursion terminates because subdivision halves the node size; the
fuel makes that explicit).  A leaf pushes the boid and subdivides once
`boids.length > maxBoids` and the diagonal exceeds `minSize`; an internal node
recurses into all children.  `subdivide` is inlined: fresh children, the held
boids (including the new one) re-inserted into every child, own list cleared. -/
def insertF : ℕ → ONode → OBoid → ONode
  | 0, n, _ => n
  | f + 1, .mk bounds children boids, b =>
    if containsPoint bounds b.pos then
      match children with
      | none =>
        let boids' := boids ++ [b]
        if maxBoids < boids'.length ∧ minSize * minSize < diag2 bounds then
          let cs := mkChildren bounds
          let cs' := boids'.foldl (fun acc bd => acc.map fun c => insertF f c bd) cs
          .mk bounds (some cs') []
        else
          .mk bounds none boids'
      | some cs =>
        .mk bounds (some (cs.map fun c => insertF f c b)) boids
    else
      .mk bounds children boids

/-- Model of `OctreeNode.queryRange` (fueled): prune by box/sphere intersection, keep the
held boids inside the sphere, recurse into the children.  The source appends to
an accumulator; the pure reading returns the appended list. -/
def queryRangeF : ℕ → ONode → SphereQ → List OBoid
  | 0, _, _ => []
  | f + 1, .mk bounds children boids, range =>
    if intersectsSphere bounds range then
      boids.filter (fun b => decide (sphereContains range b.pos)) ++
        (match children with
         | none => []
         | some cs => (cs.map fun c => queryRangeF f c range).flatten)
    else []

/-- All boids stored anywhere in the tree (fueled traversal). -/
def allBoidsF : ℕ → ONode → List OBoid
  | 0, _ => []
  | f + 1, .mk _ children boids =>
    boids ++
      (match children with
       | none => []
       | some cs => (cs.map fun c => allBoidsF f c).flatten)

/-- The root node built by the `Octree` constructor: uniform size from the
maximum dimension, center forced to the origin. -/
def octreeRoot (size : Vec3Q) : ONode :=
  let maxDim := max size.x (max size.y size.z)
  .mk (nodeBox ⟨0, 0, 0⟩ ⟨maxDim, maxDim, maxDim⟩) none []

/-- Model of `Octree.findNeighbors`: query a sphere of radius `radius * 1.1`, drop the
querying boid itself, sort ascending by distance to the querying boid
(comparing squared distances, which orders identically to distances). -/
def findNeighborsF (f : ℕ) (t : ONode) (b : OBoid) (radius : ℚ) : List OBoid :=
  let found := queryRangeF f t ⟨b.pos, radius * (11 / 10)⟩
  (found.filter fun o => decide (o ≠ b)).insertionSort
    (fun u v => dist2 u.pos b.pos ≤ dist2 v.pos b.pos)

/-- Inserting a list of boids one at a time, each top-level call with the same
fuel (`Octree.insert` per boid, as `Flock.update` does). -/
def insertListF (f : ℕ) (n : ONode) (bs : List OBoid) : ONode :=
  bs.foldl (fun m b => insertF f m b) n

/-- Nine boids (capacity + 1) whose positions all lie in the central region of
the 400³ world, each within distance 100 of the origin. -/
def nineBoids : List OBoid :=
  [⟨1, ⟨-4, 0, 0⟩⟩, ⟨2, ⟨-3, 0, 0⟩⟩, ⟨3, ⟨-2, 0, 0⟩⟩, ⟨4, ⟨-1, 0, 0⟩⟩,
   ⟨5, ⟨0, 0, 0⟩⟩, ⟨6, ⟨1, 0, 0⟩⟩, ⟨7, ⟨2, 0, 0⟩⟩, ⟨8, ⟨3, 0, 0⟩⟩, ⟨9, ⟨4, 0, 0⟩⟩]

/-- The tree obtained by inserting `nineBoids` into the `Flock`-sized octree
(the ninth insertion triggers subdivision). -/
def t9 : ONode := insertListF 5 (octreeRoot ⟨400, 400, 400⟩) nineBoids

/-- A querying boid at the origin. -/
def qBoid : OBoid := ⟨0, ⟨0, 0, 0⟩⟩

/-- A boid at distance 10.5 from the origin: beyond a query radius of 10 but
inside the enlarged `10 * 1.1` search sphere. -/
def farBoid : OBoid := ⟨1, ⟨21 / 2, 0, 0⟩⟩

/-- A tree holding just `farBoid`. -/
def tFar : ONode := insertF 1 (octreeRoot ⟨400, 400, 400⟩) farBoid

/-! ## JS numbers and `setWeight` (`Boid.setWeight`, both variants) -/

/-- A JavaScript number as far as the `setWeight` guard can observe it:
a finite value, `NaN`, or `±Infinity`. -/
inductive JSNum : Type where
  | fin : ℚ → JSNum
  | nan : JSNum
  | posInf : JSNum
  | negInf : JSNum
deriving DecidableEq

/-- JavaScript's global `isNaN` on a number argument. -/
def isNaNJ : JSNum → Bool
  | .nan => true
  | _ => false

/-- JavaScript's `<` on numbers: any comparison with `NaN` is false;
`-Infinity` is below every other value; `+Infinity` is above. -/
def jsLt : JSNum → JSNum → Bool
  | .nan, _ => false
  | _, .nan => false
  | .fin a, .fin b => a < b
  | .fin _, .posInf => true
  | .fin _, .negInf => false
  | .posInf, .fin _ => false
  | .posInf, .posInf => false
  | .posInf, .negInf => false
  | .negInf, .fin _ => true
  | .negInf, .posInf => true
  | .negInf, .negInf => false

/-- The four named behaviors accepted by `setWeight`. -/
inductive BehaviorName : Type where
  | separation
  | alignment
  | cohesion
  | avoidance
deriving DecidableEq

/-- The per-boid weight record (`this.weights`). -/
structure WeightsJ where
  separation : JSNum
  alignment : JSNum
  cohesion : JSNum
  avoidance : JSNum
deriving DecidableEq

/-- Read a weight field (`getWeight`). -/
def WeightsJ.get (w : WeightsJ) : BehaviorName → JSNum
  | .separation => w.separation
  | .alignment => w.alignment
  | .cohesion => w.cohesion
  | .avoidance => w.avoidance

/-- Store a weight field (`this.weights[behavior] = weight`). -/
def WeightsJ.set (w : WeightsJ) : BehaviorName → JSNum → WeightsJ
  | .separation, v => { w with separation := v }
  | .alignment, v => { w with alignment := v }
  | .cohesion, v => { w with cohesion := v }
  | .avoidance, v => { w with avoidance := v }

/-- Default weights of the first `Boid` variant. -/
def defaultWeightsFst : WeightsJ := ⟨.fin 2, .fin 1, .fin 1, .fin 2⟩

/-- Default weights of the second `Boid` variant. -/
def defaultWeightsSnd : WeightsJ := ⟨.fin 2, .fin (13 / 10), .fin (4 / 5), .fin 2⟩

/-- Model of `Boid.setWeight`, first variant: assigns unconditionally. -/
def setWeightFst (w : WeightsJ) (b : BehaviorName) (v : JSNum) : WeightsJ :=
  w.set b v

/-- Model of `Boid.setWeight`, second variant: rejects the change when
`isNaN(weight) || weight < 0`, otherwise assigns. -/
def setWeightSnd (w : WeightsJ) (b : BehaviorName) (v : JSNum) : WeightsJ :=
  if isNaNJ v || jsLt v (.fin 0) then w else w.set b v

/-! ## Interaction ranges and `setPerceptionRadius` (both variants) -/

/-- The per-boid interaction range record (`this.ranges`). -/
structure RangesQ where
  separation : ℚ
  alignment : ℚ
  cohesion : ℚ
deriving DecidableEq

/-- Initial ranges of the first `Boid` variant. -/
def defaultRangesFst : RangesQ := ⟨15, 50, 50⟩

/-- Model of `Boid.setPerceptionRadius`, first variant: `scale = radius / cohesion`,
then `separation := 15 * scale`, `alignment := 50 * scale`,
`cohesion := radius` — the constants 15 and 50 are hard-coded. -/
def setPerceptionRadiusFst (radius : ℚ) (r : RangesQ) : RangesQ :=
  let scale := radius / r.cohesion
  ⟨15 * scale, 50 * scale, radius⟩

/-! ## Real 3-vectors (`THREE.Vector3` operations used by the boid physics) -/

/-- A 3-vector over `ℝ`. -/
structure Vec3 where
  x : ℝ
  y : ℝ
  z : ℝ

instance : Zero Vec3 := ⟨⟨0, 0, 0⟩⟩

instance : Add Vec3 := ⟨fun a b => ⟨a.x + b.x, a.y + b.y, a.z + b.z⟩⟩

instance : Sub Vec3 := ⟨fun a b => ⟨a.x - b.x, a.y - b.y, a.z - b.z⟩⟩

/-- Model of `THREE.Vector3.multiplyScalar`. -/
def Vec3.smul (c : ℝ) (v : Vec3) : Vec3 := ⟨c * v.x, c * v.y, c * v.z⟩

/-- Model of `THREE.Vector3.length`. -/
noncomputable def Vec3.len (v : Vec3) : ℝ :=
  Real.sqrt (v.x * v.x + v.y * v.y + v.z * v.z)

/-- Model of `THREE.Vector3.distanceTo`. -/
noncomputable def Vec3.distTo (a b : Vec3) : ℝ := (a - b).len

/-- Model of `THREE.Vector3.normalize`: divides by `length() || 1`, so the zero vector
stays zero. -/
noncomputable def Vec3.normalize (v : Vec3) : Vec3 :=
  Vec3.smul (1 / (if v.len = 0 then 1 else v.len)) v

/-- Model of `THREE.Vector3.clampLength(lo, hi)`: rescale to
`max(lo, min(hi, length))`, guarding the zero vector. -/
noncomputable def Vec3.clampLength (v : Vec3) (lo hi : ℝ) : Vec3 :=
  Vec3.smul (max lo (min hi v.len)) (Vec3.smul (1 / (if v.len = 0 then 1 else v.len)) v)

/-- Model of `Math.sign`. -/
noncomputable def jsign (x : ℝ) : ℝ := if 0 < x then 1 else if x < 0 then -1 else 0

/-- Model of `THREE.MathUtils.clamp(value, lo, hi) = max(lo, min(hi, value))`. -/
noncomputable def clampR (v lo hi : ℝ) : ℝ := max lo (min hi v)

/-! ## Boid state and per-tick physics (`src/boids/Boid.ts`, both variants) -/

/-- The per-boid interaction ranges over `ℝ`. -/
structure RangesR where
  separation : ℝ
  alignment : ℝ
  cohesion : ℝ

/-- The per-boid force weights over `ℝ`. -/
structure WeightsR where
  separation : ℝ
  alignment : ℝ
  cohesion : ℝ
  avoidance : ℝ

/-- The state of one boid: object identity, kinematic state
(`mesh.position`, `velocity`, `acceleration`), speed/force parameters, the
range and weight records, and the mesh scale set by `Flock.setBoidSize`
(`mesh.scale`, uniform). -/
structure BoidState where
  bid : ℕ
  pos : Vec3
  vel : Vec3
  acc : Vec3
  maxSpeed : ℝ
  maxForce : ℝ
  minSpeed : ℝ
  ranges : RangesR
  weights : WeightsR
  scale : ℝ

/-- Model of `Boid.separate`, first variant: inverse-cube repulsion from every distinct
neighbor closer than the separation range, averaged, then steered toward a
desired speed of `min(maxSpeed * 1.5, ‖steering‖ * 2)`. -/
noncomputable def separateFst (s : BoidState) (boids : List BoidState) : Vec3 :=
  let acc := boids.foldl
    (fun (p : Vec3 × ℕ) other =>
      if other.bid = s.bid then p
      else
        let d := s.pos.distTo other.pos
        if 0 < d ∧ d < s.ranges.separation then
          let diff := s.pos - other.pos
          let strength := min 10 (8 / (d * d * d))
          (p.1 + Vec3.smul strength diff.normalize, p.2 + 1)
        else p)
    ((0 : Vec3), (0 : ℕ))
  let steering := acc.1
  let count := acc.2
  if 0 < count then
    let steering := Vec3.smul (1 / (count : ℝ)) steering
    if 0 < steering.len then
      let desiredSpeed := min (s.maxSpeed * 1.5) (steering.len * 2)
      Vec3.smul desiredSpeed steering.normalize - s.vel
    else steering
  else steering

/-- Model of `Boid.align`, first variant: plain average of the velocities of neighbors
within the alignment range, steered at max speed. -/
noncomputable def alignFst (s : BoidState) (boids : List BoidState) : Vec3 :=
  let acc := boids.foldl
    (fun (p : Vec3 × ℕ) other =>
      if other.bid = s.bid then p
      else if s.pos.distTo other.pos < s.ranges.alignment then
        (p.1 + other.vel, p.2 + 1)
      else p)
    ((0 : Vec3), (0 : ℕ))
  let sum := acc.1
  let count := acc.2
  if 0 < count then
    let sum := Vec3.smul (1 / (count : ℝ)) sum
    Vec3.smul s.maxSpeed sum.normalize - s.vel
  else 0

/-- Model of `Boid.seek`: steer toward a target at max speed (zero at zero distance). -/
noncomputable def seekFst (s : BoidState) (target : Vec3) : Vec3 :=
  let desired := target - s.pos
  if 0 < desired.len then Vec3.smul s.maxSpeed desired.normalize - s.vel else 0

/-- Model of `Boid.cohesion`, first variant: plain average of the positions of
neighbors within the cohesion range, then `seek` that center. -/
noncomputable def cohesionFst (s : BoidState) (boids : List BoidState) : Vec3 :=
  let acc := boids.foldl
    (fun (p : Vec3 × ℕ) other =>
      if other.bid = s.bid then p
      else if s.pos.distTo other.pos < s.ranges.cohesion then
        (p.1 + other.pos, p.2 + 1)
      else p)
    ((0 : Vec3), (0 : ℕ))
  let center := acc.1
  let count := acc.2
  if 0 < count then seekFst s (Vec3.smul (1 / (count : ℝ)) center) else 0

/-- Model of `Boid.avoidObstacles` (identical in both variants): inverse-distance
repulsion from obstacles within `cohesion * 1.5`, steered and clamped to the
steering-force cap. -/
noncomputable def avoidObstacles (s : BoidState) (obstacles : List Vec3) : Vec3 :=
  let steering := obstacles.foldl
    (fun (st : Vec3) obstacle =>
      let d := s.pos.distTo obstacle
      if d < s.ranges.cohesion * 1.5 then
        st + Vec3.smul (1 / d) (s.pos - obstacle).normalize
      else st)
    0
  if 0 < steering.len then
    (Vec3.smul s.maxSpeed steering.normalize - s.vel).clampLength 0 s.maxForce
  else steering

/-- Model of `Boid.enforceBoundaries` (identical in both variants): inside a 40-unit
margin of the 200-unit half-extent, add an inward steering term to the
velocity on each offending axis, then hard-clamp the position to ±200. -/
noncomputable def enforceBoundaries (s : BoidState) : BoidState :=
  let bounds : ℝ := 200
  let margin : ℝ := 40
  let turnFactor : ℝ := 0.1
  let xDist := |s.pos.x| - (bounds - margin)
  let yDist := |s.pos.y| - (bounds - margin)
  let zDist := |s.pos.z| - (bounds - margin)
  let vx := if 0 < xDist then s.vel.x + -jsign s.pos.x * turnFactor * (xDist / margin) else s.vel.x
  let vy := if 0 < yDist then s.vel.y + -jsign s.pos.y * turnFactor * (yDist / margin) else s.vel.y
  let vz := if 0 < zDist then s.vel.z + -jsign s.pos.z * turnFactor * (zDist / margin) else s.vel.z
  { s with
    vel := ⟨vx, vy, vz⟩
    pos := ⟨clampR s.pos.x (-bounds) bounds, clampR s.pos.y (-bounds) bounds,
            clampR s.pos.z (-bounds) bounds⟩ }

/-- The speed clamp shared by both `update` variants: skip near zero, scale
down above max, scale up below min. -/
noncomputable def clampSpeed (s : BoidState) (v : Vec3) : Vec3 :=
  let speed := v.len
  if 0.0001 < speed then
    if s.maxSpeed < speed then Vec3.smul (s.maxSpeed / speed) v
    else if speed < s.minSpeed then Vec3.smul (s.minSpeed / speed) v
    else v
  else v

/-- Model of `Boid.update`, first variant: reset acceleration, compute the four forces,
weight them, clamp the combined acceleration to `maxForce`, integrate velocity,
clamp the speed, advance the position, orient the mesh (cosmetic: it touches
only the rotation, so it is not part of the state here), enforce boundaries. -/
noncomputable def updateFst (s : BoidState) (boids : List BoidState)
    (obstacles : List Vec3) : BoidState :=
  let separation := Vec3.smul s.weights.separation (separateFst s boids)
  let alignment := Vec3.smul s.weights.alignment (alignFst s boids)
  let cohesion := Vec3.smul s.weights.cohesion (cohesionFst s boids)
  let avoidance := Vec3.smul s.weights.avoidance (avoidObstacles s obstacles)
  let accel := ((((0 : Vec3) + separation) + alignment) + cohesion) + avoidance
  let accel := accel.clampLength 0 s.maxForce
  let v1 := s.vel + accel
  let v2 := clampSpeed s v1
  let p1 := s.pos + v2
  enforceBoundaries { s with acc := accel, vel := v2, pos := p1 }

/-- Model of `Boid.separate`, second variant: collision-predictive separation.  Uses the
mesh scale as a physical radius, a 0.5 s velocity look-ahead, three strength
regimes (emergency / predictive / comfortable), a small velocity-difference
correction, and a boost when more than two neighbors contribute. -/
noncomputable def separateSnd (s : BoidState) (boids : List BoidState) : Vec3 :=
  let physicalRadius := s.scale * 1.0
  let lookAheadTime : ℝ := 0.5
  let acc := boids.foldl
    (fun (p : Vec3 × ℕ) other =>
      if other.bid = s.bid then p
      else
        let d := s.pos.distTo other.pos
        let combinedRadius := physicalRadius + other.scale * 1.0
        let myFuturePos := s.pos + Vec3.smul lookAheadTime s.vel
        let otherFuturePos := other.pos + Vec3.smul lookAheadTime other.vel
        let futureDistance := myFuturePos.distTo otherFuturePos
        if d < s.ranges.separation ∨ futureDistance < combinedRadius * 2 then
          let diff := s.pos - other.pos
          let strength :=
            if d < combinedRadius * 1.2 then min 20 (10 / (d * d))
            else if futureDistance < combinedRadius * 2 then min 15 (5 / futureDistance)
            else min 8 (2 / (d * d))
          let velDiff := other.vel - s.vel
          let diff := diff - Vec3.smul 0.1 velDiff
          (p.1 + Vec3.smul strength diff.normalize, p.2 + 1)
        else p)
    ((0 : Vec3), (0 : ℕ))
  let steering := acc.1
  let count := acc.2
  if 0 < count then
    let steering := Vec3.smul (1 / (count : ℝ)) steering
    if 0 < steering.len then
      let desiredSpeed := min (s.maxSpeed * 2.0) (steering.len * 2)
      let steering := Vec3.smul desiredSpeed steering.normalize - s.vel
      if 2 < count then Vec3.smul 1.5 steering else steering
    else steering
  else steering

/-- Model of `Boid.align`, second variant: distance-weighted average of neighbor
velocities (closer neighbors weigh more), steered at max speed. -/
noncomputable def alignSnd (s : BoidState) (boids : List BoidState) : Vec3 :=
  let acc := boids.foldl
    (fun (p : Vec3 × ℝ × ℕ) other =>
      if other.bid = s.bid then p
      else
        let d := s.pos.distTo other.pos
        if d < s.ranges.alignment then
          let weight := 1 - d / s.ranges.alignment
          (p.1 + Vec3.smul weight other.vel, p.2.1 + weight, p.2.2 + 1)
        else p)
    ((0 : Vec3), (0 : ℝ), (0 : ℕ))
  let sum := acc.1
  let totalWeight := acc.2.1
  let count := acc.2.2
  if 0 < count then
    let sum := Vec3.smul (1 / totalWeight) sum
    Vec3.smul s.maxSpeed sum.normalize - s.vel
  else 0

/-- Model of `Boid.cohesion`, second variant: distance-weighted center of mass with the
weight damped toward physical contact, then a seek whose speed is reduced at
close range. -/
noncomputable def cohesionSnd (s : BoidState) (boids : List BoidState) : Vec3 :=
  let physicalRadius := s.scale * 1.0
  let acc := boids.foldl
    (fun (p : Vec3 × ℝ × ℕ) other =>
      if other.bid = s.bid then p
      else
        let d := s.pos.distTo other.pos
        if d < s.ranges.cohesion then
          let weight := max 0.2 (1 - d / s.ranges.cohesion)
          let combinedRadius := physicalRadius + other.scale * 1.0
          let weight := if d < combinedRadius * 2 then weight * (d / (combinedRadius * 2)) else weight
          (p.1 + Vec3.smul weight other.pos, p.2.1 + weight, p.2.2 + 1)
        else p)
    ((0 : Vec3), (0 : ℝ), (0 : ℕ))
  let center := acc.1
  let totalWeight := acc.2.1
  let count := acc.2.2
  if 0 < count then
    let center := Vec3.smul (1 / totalWeight) center
    let desired := center - s.pos
    let d := desired.len
    if 0 < d then
      let speed := s.maxSpeed * min 0.7 (d / (s.ranges.cohesion * 0.5))
      Vec3.smul speed desired.normalize - s.vel
    else 0
  else 0

/-- Model of `Boid.update`, second variant: as the first, except that the steering cap
doubles when the weighted separation force is large (`‖separation‖ > 1.5`). -/
noncomputable def updateSnd (s : BoidState) (boids : List BoidState)
    (obstacles : List Vec3) : BoidState :=
  let separation := Vec3.smul s.weights.separation (separateSnd s boids)
  let alignment := Vec3.smul s.weights.alignment (alignSnd s boids)
  let cohesion := Vec3.smul s.weights.cohesion (cohesionSnd s boids)
  let avoidance := Vec3.smul s.weights.avoidance (avoidObstacles s obstacles)
  let accel := ((((0 : Vec3) + separation) + alignment) + cohesion) + avoidance
  let maxForce := if 1.5 < separation.len then s.maxForce * 2.0 else s.maxForce
  let accel := accel.clampLength 0 maxForce
  let v1 := s.vel + accel
  let v2 := clampSpeed s v1
  let p1 := s.pos + v2
  enforceBoundaries { s with acc := accel, vel := v2, pos := p1 }

/-- Model of `Boid.setMaxSpeed` (identical in both variants): store the new max, scale
the current velocity down to it if it exceeds it, set `minSpeed` to 25 % of the
new max. -/
noncomputable def setMaxSpeed (s : BoidState) (speed : ℝ) : BoidState :=
  let currentSpeed := s.vel.len
  let v' := if speed < currentSpeed then Vec3.smul speed s.vel.normalize else s.vel
  { s with maxSpeed := speed, vel := v', minSpeed := speed * 0.25 }

/-- Replace a boid's mesh scale: the effect of `Flock.setBoidSize` on one boid
(`boid.mesh.scale.setScalar(size)`). -/
def setScale (size : ℝ) (s : BoidState) : BoidState := { s with scale := size }

/-- The world half-extent hard-coded in `Boid.enforceBoundaries`. -/
noncomputable def boidBounds : ℝ := 200

/-- The world extent declared by the first `Flock` variant (`bounds.width`,
400 on each axis). -/
def flockWorldExtent : ℝ := 400

/-- Default parameters of the first `Boid` variant, at a given identity,
position and velocity (`maxSpeed 2`, `maxForce 0.05`, `minSpeed 0.5`, ranges
15/50/50, weights 2/1/1/2, mesh scale 2). -/
def mkBoidFst (i : ℕ) (p v : Vec3) : BoidState :=
  ⟨i, p, v, ⟨0, 0, 0⟩, 2, 0.05, 0.5, ⟨15, 50, 50⟩, ⟨2, 1, 1, 2⟩, 2⟩

/-- Default parameters of the second `Boid` variant at a given scale
(ranges 25/75/100, weights 2/1.3/0.8/2). -/
noncomputable def mkBoidSnd (i : ℕ) (p v : Vec3) (sc : ℝ) : BoidState :=
  ⟨i, p, v, ⟨0, 0, 0⟩, 2, 0.05, 0.5, ⟨25, 75, 100⟩, ⟨2, 13 / 10, 4 / 5, 2⟩, sc⟩

/-- A first-variant boid heading outward at full speed just inside the world
edge: position (199, 0, 0), velocity (-2, 0, 0). -/
def cexBoidC1 : BoidState := mkBoidFst 0 ⟨199, 0, 0⟩ ⟨-2, 0, 0⟩

/-- A first-variant boid in the interior with an in-range speed. -/
def witBoidC1 : BoidState := mkBoidFst 0 ⟨0, 0, 0⟩ ⟨1, 0, 0⟩

/-- Second-variant boid A of the visual-scale counterexample: at the origin,
at rest, with mesh scale `sc`. -/
noncomputable def boidA (sc : ℝ) : BoidState := mkBoidSnd 0 ⟨0, 0, 0⟩ ⟨0, 0, 0⟩ sc

/-- Second-variant boid B of the visual-scale counterexample: at (7, 0, 0),
at rest, with mesh scale `sc`. -/
noncomputable def boidB (sc : ℝ) : BoidState := mkBoidSnd 1 ⟨7, 0, 0⟩ ⟨0, 0, 0⟩ sc

/-- A first-variant boid with speed 5 (velocity (3, 4, 0)). -/
def witBoidC7 : BoidState := mkBoidFst 0 ⟨0, 0, 0⟩ ⟨3, 4, 0⟩

/-! ## Helper lemmas -/

unseal Rat.add Rat.mul Rat.inv Rat.sub Rat.ofScientific

theorem Vec3.zero_def : (0 : Vec3) = ⟨0, 0, 0⟩ := rfl

theorem Vec3.add_mk (a b c d e f : ℝ) :
    (⟨a, b, c⟩ + ⟨d, e, f⟩ : Vec3) = ⟨a + d, b + e, c + f⟩ := rfl

theorem Vec3.sub_mk (a b c d e f : ℝ) :
    (⟨a, b, c⟩ - ⟨d, e, f⟩ : Vec3) = ⟨a - d, b - e, c - f⟩ := rfl

theorem Vec3.smul_mk (c a b d : ℝ) : Vec3.smul c ⟨a, b, d⟩ = ⟨c * a, c * b, c * d⟩ := rfl

theorem Vec3.len_mk (a b c : ℝ) : Vec3.len ⟨a, b, c⟩ = Real.sqrt (a * a + b * b + c * c) := rfl

theorem Vec3.len_xaxis (a : ℝ) : Vec3.len ⟨a, 0, 0⟩ = |a| := by
  rw [Vec3.len_mk]
  simpa using Real.sqrt_mul_self_eq_abs a

theorem Vec3.len_nonneg (v : Vec3) : 0 ≤ v.len := Real.sqrt_nonneg _

theorem Vec3.len_zero : (0 : Vec3).len = 0 := by
  rw [Vec3.zero_def, Vec3.len_xaxis]; simp

theorem Vec3.len_smul (c : ℝ) (v : Vec3) : (Vec3.smul c v).len = |c| * v.len := by
  obtain ⟨x, y, z⟩ := v
  rw [Vec3.smul_mk, Vec3.len_mk, Vec3.len_mk]
  rw [show c * x * (c * x) + c * y * (c * y) + c * z * (c * z)
      = (c * c) * (x * x + y * y + z * z) by ring]
  rw [Real.sqrt_mul (mul_self_nonneg c), Real.sqrt_mul_self_eq_abs]

theorem Vec3.smul_zero (c : ℝ) : Vec3.smul c 0 = 0 := by
  rw [Vec3.zero_def, Vec3.smul_mk]; norm_num

theorem Vec3.add_zero (v : Vec3) : v + 0 = v := by
  obtain ⟨x, y, z⟩ := v; rw [Vec3.zero_def, Vec3.add_mk]; norm_num

theorem Vec3.zero_add (v : Vec3) : (0 : Vec3) + v = v := by
  obtain ⟨x, y, z⟩ := v; rw [Vec3.zero_def, Vec3.add_mk]; norm_num

theorem Vec3.clampLength_zero (lo hi : ℝ) : (0 : Vec3).clampLength lo hi = 0 := by
  rw [Vec3.clampLength]
  rw [Vec3.len_zero]
  simp [Vec3.smul_zero]

theorem separateFst_nil (s : BoidState) : separateFst s [] = 0 := by
  simp [separateFst]

theorem alignFst_nil (s : BoidState) : alignFst s [] = 0 := by
  simp [alignFst]

theorem cohesionFst_nil (s : BoidState) : cohesionFst s [] = 0 := by
  simp [cohesionFst]

theorem avoidObstacles_nil (s : BoidState) : avoidObstacles s [] = 0 := by
  simp [avoidObstacles, Vec3.len_zero]

theorem updateFst_nil (s : BoidState) :
    updateFst s [] [] =
      enforceBoundaries { s with acc := 0, vel := clampSpeed s s.vel,
                                 pos := s.pos + clampSpeed s s.vel } := by
  rw [updateFst]
  rw [separateFst_nil, alignFst_nil, cohesionFst_nil, avoidObstacles_nil]
  rw [Vec3.smul_zero, Vec3.smul_zero, Vec3.smul_zero, Vec3.smul_zero]
  rw [Vec3.add_zero, Vec3.add_zero, Vec3.add_zero, Vec3.add_zero]
  rw [Vec3.clampLength_zero, Vec3.add_zero]

/-- Evaluation of one tick of the boundary counterexample boid. -/
theorem updateFst_cex_eval : updateFst cexBoidC1 [] [] =
    { cexBoidC1 with acc := 0, vel := ⟨-2.0925, 0, 0⟩, pos := ⟨197, 0, 0⟩ } := by
  rw [updateFst_nil]
  norm_num [clampSpeed, Vec3.len_xaxis, cexBoidC1, mkBoidFst, Vec3.add_mk,
    enforceBoundaries, jsign, clampR, Vec3.zero_def]

/-- Evaluation of one tick of the interior witness boid. -/
theorem updateFst_wit_eval : updateFst witBoidC1 [] [] =
    { witBoidC1 with acc := 0, vel := ⟨1, 0, 0⟩, pos := ⟨1, 0, 0⟩ } := by
  rw [updateFst_nil]
  norm_num [clampSpeed, Vec3.len_xaxis, witBoidC1, mkBoidFst, Vec3.add_mk,
    enforceBoundaries, jsign, clampR, Vec3.zero_def]

/-- Model of `updateFst` always ends by handing a state with the integrated velocity and
position to `enforceBoundaries`. -/
theorem updateFst_decomp (s : BoidState) (boids : List BoidState) (obstacles : List Vec3) :
    ∃ a : Vec3, updateFst s boids obstacles =
      enforceBoundaries { s with acc := a, vel := clampSpeed s (s.vel + a),
                                 pos := s.pos + clampSpeed s (s.vel + a) } :=
  ⟨_, rfl⟩

/-- What the speed clamp guarantees: skipped near zero, otherwise the speed
lands in `[minSpeed, maxSpeed]`. -/
theorem clampSpeed_spec (s : BoidState) (v : Vec3)
    (hmin : 0 ≤ s.minSpeed) (hmm : s.minSpeed ≤ s.maxSpeed) :
    (clampSpeed s v).len ≤ 0.0001 ∨
      (s.minSpeed ≤ (clampSpeed s v).len ∧ (clampSpeed s v).len ≤ s.maxSpeed) := by
  rw [clampSpeed]
  by_cases h1 : (0.0001 : ℝ) < v.len
  · rw [if_pos h1]
    have hv : (0 : ℝ) < v.len := lt_trans (by norm_num) h1
    by_cases h2 : s.maxSpeed < v.len
    · rw [if_pos h2]
      right
      have : (Vec3.smul (s.maxSpeed / v.len) v).len = s.maxSpeed := by
        rw [Vec3.len_smul, abs_of_nonneg (div_nonneg (hmin.trans hmm) hv.le)]
        field_simp
      rw [this]
      exact ⟨hmm, le_rfl⟩
    · rw [if_neg h2]
      by_cases h3 : v.len < s.minSpeed
      · rw [if_pos h3]
        right
        have : (Vec3.smul (s.minSpeed / v.len) v).len = s.minSpeed := by
          rw [Vec3.len_smul, abs_of_nonneg (div_nonneg hmin hv.le)]
          field_simp
        rw [this]
        exact ⟨le_rfl, hmm⟩
      · rw [if_neg h3]
        right
        exact ⟨not_lt.mp h3, not_lt.mp h2⟩
  · rw [if_neg h1]
    left
    exact not_lt.mp h1

/-- A clamped coordinate inside the margin region implies the unclamped one
was already there. -/
theorem abs_le_of_abs_clampR_le {x : ℝ} (h : |clampR x (-200) 200| ≤ 160) : |x| ≤ 160 := by
  rw [clampR] at h
  rcases abs_le.mp h with ⟨hlo, hhi⟩
  have h1 : min 200 x ≤ 160 := le_of_max_le_right hhi
  have h2 : x ≤ 160 := by
    rcases min_le_iff.mp h1 with h | h
    · norm_num at h
    · exact h
  have h3 : (-160 : ℝ) ≤ x := by
    rcases le_max_iff.mp hlo with h | h
    · norm_num at h
    · exact (le_min_iff.mp h).2
  exact abs_le.mpr ⟨h3, h2⟩

/-- Model of `enforceBoundaries` written out. -/
theorem enforceBoundaries_eq (t : BoidState) :
    enforceBoundaries t =
      { t with
        vel := ⟨if 0 < |t.pos.x| - 160 then t.vel.x + -jsign t.pos.x * 0.1 * ((|t.pos.x| - 160) / 40) else t.vel.x,
                if 0 < |t.pos.y| - 160 then t.vel.y + -jsign t.pos.y * 0.1 * ((|t.pos.y| - 160) / 40) else t.vel.y,
                if 0 < |t.pos.z| - 160 then t.vel.z + -jsign t.pos.z * 0.1 * ((|t.pos.z| - 160) / 40) else t.vel.z⟩
        pos := ⟨clampR t.pos.x (-200) 200, clampR t.pos.y (-200) 200, clampR t.pos.z (-200) 200⟩ } := by
  rw [enforceBoundaries]
  norm_num

/-- When every post-move coordinate stays inside the margin region the
boundary steering leaves the velocity untouched. -/
theorem enforceBoundaries_vel_of_interior (t : BoidState)
    (hx : |t.pos.x| ≤ 160) (hy : |t.pos.y| ≤ 160) (hz : |t.pos.z| ≤ 160) :
    (enforceBoundaries t).vel = t.vel := by
  rw [enforceBoundaries_eq]
  have hx' : ¬(0 < |t.pos.x| - 160) := by linarith
  have hy' : ¬(0 < |t.pos.y| - 160) := by linarith
  have hz' : ¬(0 < |t.pos.z| - 160) := by linarith
  rw [if_neg hx', if_neg hy', if_neg hz']

theorem abs_clampR_le (x : ℝ) : |clampR x (-200) 200| ≤ 200 := by
  rw [clampR]
  rw [abs_le]
  constructor
  · exact le_max_of_le_left (by norm_num)
  · exact max_le (by norm_num) (min_le_left _ _)

/-- C1, as stated, fails: a boid at (199,0,0) flying outward at full speed has
speed 2.0925 > maxSpeed = 2 after `update`, because `enforceBoundaries` adds
its steering to the velocity after the speed clamp has already run.  The
velocity is nowhere near zero, so the near-zero exception does not apply. -/
theorem C1_counterexample :
    (updateFst cexBoidC1 [] []).maxSpeed = 2 ∧
    (updateFst cexBoidC1 [] []).minSpeed = 0.5 ∧
    2 < (updateFst cexBoidC1 [] []).vel.len ∧
    0.0001 < (updateFst cexBoidC1 [] []).vel.len := by
  rw [updateFst_cex_eval]
  norm_num [cexBoidC1, mkBoidFst, Vec3.len_xaxis, abs_of_nonneg, abs_of_nonpos]

/-- C1 (amended): after `update`, whenever the post-tick position lies within
the margin region (each |coordinate| ≤ bounds - margin = 160), so that no
boundary steering fired this tick, the speed lies in [minSpeed, maxSpeed]
unless the velocity is near zero (≤ 0.0001, the division-by-zero guard). -/
theorem C1_boundedSpeed (s : BoidState) (boids : List BoidState) (obstacles : List Vec3)
    (hmin : 0 ≤ s.minSpeed) (hmm : s.minSpeed ≤ s.maxSpeed)
    (hx : |(updateFst s boids obstacles).pos.x| ≤ 160)
    (hy : |(updateFst s boids obstacles).pos.y| ≤ 160)
    (hz : |(updateFst s boids obstacles).pos.z| ≤ 160) :
    (updateFst s boids obstacles).vel.len ≤ 0.0001 ∨
      (s.minSpeed ≤ (updateFst s boids obstacles).vel.len ∧
        (updateFst s boids obstacles).vel.len ≤ s.maxSpeed) := by
  obtain ⟨a, ha⟩ := updateFst_decomp s boids obstacles
  rw [ha] at hx hy hz ⊢
  have hx' : |(s.pos + clampSpeed s (s.vel + a)).x| ≤ 160 :=
    abs_le_of_abs_clampR_le (by simpa [enforceBoundaries_eq] using hx)
  have hy' : |(s.pos + clampSpeed s (s.vel + a)).y| ≤ 160 :=
    abs_le_of_abs_clampR_le (by simpa [enforceBoundaries_eq] using hy)
  have hz' : |(s.pos + clampSpeed s (s.vel + a)).z| ≤ 160 :=
    abs_le_of_abs_clampR_le (by simpa [enforceBoundaries_eq] using hz)
  rw [enforceBoundaries_vel_of_interior _ hx' hy' hz']
  exact clampSpeed_spec s (s.vel + a) hmin hmm

/-- Witness for `C1_boundedSpeed`: a default boid in the interior, one tick. -/
theorem C1_boundedSpeed_witness :
    (updateFst witBoidC1 [] []).vel.len ≤ 0.0001 ∨
      (witBoidC1.minSpeed ≤ (updateFst witBoidC1 [] []).vel.len ∧
        (updateFst witBoidC1 [] []).vel.len ≤ witBoidC1.maxSpeed) :=
  C1_boundedSpeed witBoidC1 [] []
    (by norm_num [witBoidC1, mkBoidFst])
    (by norm_num [witBoidC1, mkBoidFst])
    (by rw [updateFst_wit_eval]; norm_num)
    (by rw [updateFst_wit_eval]; norm_num)
    (by rw [updateFst_wit_eval]; norm_num)

/-- C2: after every `update` the position is hard-clamped into the declared
world half-extent (200 = 400/2) on every axis, whatever the neighbors and
obstacles did. -/
theorem C2_containment (s : BoidState) (boids : List BoidState) (obstacles : List Vec3) :
    |(updateFst s boids obstacles).pos.x| ≤ flockWorldExtent / 2 ∧
    |(updateFst s boids obstacles).pos.y| ≤ flockWorldExtent / 2 ∧
    |(updateFst s boids obstacles).pos.z| ≤ flockWorldExtent / 2 := by
  obtain ⟨a, ha⟩ := updateFst_decomp s boids obstacles
  rw [ha, enforceBoundaries_eq]
  have h : flockWorldExtent / 2 = 200 := by norm_num [flockWorldExtent]
  rw [h]
  exact ⟨abs_clampR_le _, abs_clampR_le _, abs_clampR_le _⟩

theorem Vec3.smul_smul (a b : ℝ) (v : Vec3) : Vec3.smul a (Vec3.smul b v) = Vec3.smul (a * b) v := by
  obtain ⟨x, y, z⟩ := v
  rw [Vec3.smul_mk, Vec3.smul_mk, Vec3.smul_mk]
  simp only [Vec3.mk.injEq]
  refine ⟨by ring, by ring, by ring⟩

theorem Vec3.one_smul (v : Vec3) : Vec3.smul 1 v = v := by
  obtain ⟨x, y, z⟩ := v
  rw [Vec3.smul_mk]
  norm_num

/-- C7: `setMaxSpeed s` stores the new max, sets `minSpeed` to the fixed
fraction 0.25 of it, and rescales the current velocity down to magnitude `s`
exactly when it exceeded `s` (leaving it untouched otherwise, and never
scaling it up: the new velocity is a factor `c ∈ [0, 1]` of the old one). -/
theorem C7_setMaxSpeed (s : BoidState) (speed : ℝ) (hs : 0 < speed) :
    (setMaxSpeed s speed).maxSpeed = speed ∧
    (setMaxSpeed s speed).minSpeed = speed * 0.25 ∧
    (setMaxSpeed s speed).vel.len = min s.vel.len speed ∧
    (s.vel.len ≤ speed → (setMaxSpeed s speed).vel = s.vel) ∧
    (∃ c : ℝ, 0 ≤ c ∧ c ≤ 1 ∧ (setMaxSpeed s speed).vel = Vec3.smul c s.vel) := by
  rw [setMaxSpeed]
  by_cases h : speed < s.vel.len
  · have hlen : (0 : ℝ) < s.vel.len := lt_trans hs h
    have hne : s.vel.len ≠ 0 := ne_of_gt hlen
    rw [if_pos h]
    refine ⟨rfl, rfl, ?_, ?_, ?_⟩
    · rw [Vec3.normalize, Vec3.smul_smul, if_neg hne, Vec3.len_smul,
        abs_of_nonneg (by positivity), min_eq_right h.le]
      field_simp
    · intro hle
      exact absurd h (not_lt.mpr hle)
    · refine ⟨speed / s.vel.len, by positivity, ?_, ?_⟩
      · rw [div_le_one hlen]
        exact h.le
      · rw [Vec3.normalize, Vec3.smul_smul, if_neg hne]
        rw [show speed * (1 / s.vel.len) = speed / s.vel.len by ring]
  · rw [if_neg h]
    refine ⟨rfl, rfl, ?_, fun _ => rfl, 1, by norm_num, by norm_num, (Vec3.one_smul _).symm⟩
    exact (min_eq_left (not_lt.mp h)).symm

/-- Witness for `C7_setMaxSpeed`: a boid with velocity (3,4,0) and new max
speed 1. -/
theorem C7_setMaxSpeed_witness :
    (setMaxSpeed witBoidC7 1).maxSpeed = 1 ∧
    (setMaxSpeed witBoidC7 1).minSpeed = 1 * 0.25 ∧
    (setMaxSpeed witBoidC7 1).vel.len = min witBoidC7.vel.len 1 ∧
    (witBoidC7.vel.len ≤ 1 → (setMaxSpeed witBoidC7 1).vel = witBoidC7.vel) ∧
    (∃ c : ℝ, 0 ≤ c ∧ c ≤ 1 ∧ (setMaxSpeed witBoidC7 1).vel = Vec3.smul c witBoidC7.vel) :=
  C7_setMaxSpeed witBoidC7 1 (by norm_num)

set_option maxHeartbeats 4000000 in
/-- Rescaling every boid (what `Flock.setBoidSize` does) commutes with the
first-variant update: the physics never reads the mesh scale. -/
theorem updateFst_setScale (sc : ℝ) (s : BoidState) (boids : List BoidState)
    (obstacles : List Vec3) :
    updateFst (setScale sc s) (boids.map (setScale sc)) obstacles
      = setScale sc (updateFst s boids obstacles) := by
  unfold updateFst separateFst alignFst cohesionFst avoidObstacles seekFst clampSpeed
    enforceBoundaries
  rw [List.foldl_map, List.foldl_map, List.foldl_map]
  rfl

/-- C6 (amended for the first variant): the visual scale is cosmetic there —
two updates identical except for the mesh scale produce identical positions
and velocities. -/
theorem C6_scaleCosmetic (sc : ℝ) (s : BoidState) (boids : List BoidState)
    (obstacles : List Vec3) :
    (updateFst (setScale sc s) (boids.map (setScale sc)) obstacles).pos
        = (updateFst s boids obstacles).pos ∧
    (updateFst (setScale sc s) (boids.map (setScale sc)) obstacles).vel
        = (updateFst s boids obstacles).vel := by
  rw [updateFst_setScale]
  exact ⟨rfl, rfl⟩

set_option maxHeartbeats 1000000 in
theorem sepSnd_run1 : separateSnd (boidA 2) [boidB 2] = ⟨-(10 / 7), 0, 0⟩ := by
  norm_num [separateSnd, boidA, boidB, mkBoidSnd, Vec3.sub_mk, Vec3.add_mk, Vec3.smul_mk,
    Vec3.len_xaxis, Vec3.zero_def, Vec3.normalize, Vec3.distTo, min_def,
    Vec3.zero_add, Vec3.add_zero, Vec3.one_smul, abs_of_nonneg, abs_of_nonpos]

set_option maxHeartbeats 1000000 in
theorem sepSnd_run2 : separateSnd (boidA 1) [boidB 1] = ⟨-(4 / 49), 0, 0⟩ := by
  norm_num [separateSnd, boidA, boidB, mkBoidSnd, Vec3.sub_mk, Vec3.add_mk, Vec3.smul_mk,
    Vec3.len_xaxis, Vec3.zero_def, Vec3.normalize, Vec3.distTo, min_def,
    Vec3.zero_add, Vec3.add_zero, Vec3.one_smul, abs_of_nonneg, abs_of_nonpos]

set_option maxHeartbeats 1000000 in
theorem aliSnd_run (sc : ℝ) : alignSnd (boidA sc) [boidB sc] = 0 := by
  rw [Vec3.zero_def]
  norm_num [alignSnd, boidA, boidB, mkBoidSnd, Vec3.sub_mk, Vec3.add_mk, Vec3.smul_mk,
    Vec3.len_xaxis, Vec3.zero_def, Vec3.normalize, Vec3.distTo, min_def,
    Vec3.zero_add, Vec3.add_zero, Vec3.one_smul, Vec3.smul_zero, Vec3.len_zero,
    abs_of_nonneg, abs_of_nonpos]

set_option maxHeartbeats 1000000 in
theorem cohSnd_run1 : cohesionSnd (boidA 2) [boidB 2] = ⟨7 / 25, 0, 0⟩ := by
  norm_num [cohesionSnd, boidA, boidB, mkBoidSnd, Vec3.sub_mk, Vec3.add_mk, Vec3.smul_mk,
    Vec3.len_xaxis, Vec3.zero_def, Vec3.normalize, Vec3.distTo, min_def, max_def,
    Vec3.zero_add, Vec3.add_zero, Vec3.one_smul, abs_of_nonneg, abs_of_nonpos]

set_option maxHeartbeats 1000000 in
theorem cohSnd_run2 : cohesionSnd (boidA 1) [boidB 1] = ⟨7 / 25, 0, 0⟩ := by
  norm_num [cohesionSnd, boidA, boidB, mkBoidSnd, Vec3.sub_mk, Vec3.add_mk, Vec3.smul_mk,
    Vec3.len_xaxis, Vec3.zero_def, Vec3.normalize, Vec3.distTo, min_def, max_def,
    Vec3.zero_add, Vec3.add_zero, Vec3.one_smul, abs_of_nonneg, abs_of_nonpos]

set_option maxHeartbeats 2000000 in
theorem updSnd_run1 : updateSnd (boidA 2) [boidB 2] [] =
    { boidA 2 with acc := ⟨-(1 / 10), 0, 0⟩, vel := ⟨-(1 / 2), 0, 0⟩,
                   pos := ⟨-(1 / 2), 0, 0⟩ } := by
  simp only [updateSnd, sepSnd_run1, aliSnd_run, cohSnd_run1, avoidObstacles_nil]
  norm_num [boidA, boidB, mkBoidSnd, Vec3.sub_mk, Vec3.add_mk, Vec3.smul_mk, Vec3.smul_zero,
    Vec3.len_xaxis, Vec3.zero_def, Vec3.clampLength, clampSpeed, enforceBoundaries,
    jsign, clampR, min_def, max_def, Vec3.zero_add, Vec3.add_zero, Vec3.len_zero,
    abs_of_nonneg, abs_of_nonpos]

set_option maxHeartbeats 2000000 in
theorem updSnd_run2 : updateSnd (boidA 1) [boidB 1] [] =
    { boidA 1 with acc := ⟨1 / 20, 0, 0⟩, vel := ⟨1 / 2, 0, 0⟩,
                   pos := ⟨1 / 2, 0, 0⟩ } := by
  simp only [updateSnd, sepSnd_run2, aliSnd_run, cohSnd_run2, avoidObstacles_nil]
  norm_num [boidA, boidB, mkBoidSnd, Vec3.sub_mk, Vec3.add_mk, Vec3.smul_mk, Vec3.smul_zero,
    Vec3.len_xaxis, Vec3.zero_def, Vec3.clampLength, clampSpeed, enforceBoundaries,
    jsign, clampR, min_def, max_def, Vec3.zero_add, Vec3.add_zero, Vec3.len_zero,
    abs_of_nonneg, abs_of_nonpos]

/-- C6, as stated, fails on the second `Boid` variant: two runs identical
except for the mesh scale set by `setBoidSize` (2 versus 1) give different
velocities and positions after one update, because `separate`/`cohesion`
read `mesh.scale` as a physical radius. -/
theorem C6_counterexample :
    boidA 1 = setScale 1 (boidA 2) ∧ boidB 1 = setScale 1 (boidB 2) ∧
    (updateSnd (boidA 2) [boidB 2] []).vel ≠ (updateSnd (boidA 1) [boidB 1] []).vel ∧
    (updateSnd (boidA 2) [boidB 2] []).pos ≠ (updateSnd (boidA 1) [boidB 1] []).pos := by
  refine ⟨rfl, rfl, ?_, ?_⟩ <;> rw [updSnd_run1, updSnd_run2] <;>
    simp [boidA, mkBoidSnd, Vec3.mk.injEq] <;> norm_num

/-- C4, as stated, fails: the first `setWeight` variant stores a negative
weight unvalidated, and the second variant's `isNaN(w) || w < 0` guard lets
the non-finite value `+Infinity` through and stores it. -/
theorem C4_counterexample :
    (setWeightFst defaultWeightsFst .separation (.fin (-1))).separation = .fin (-1) ∧
    defaultWeightsFst.separation = .fin 2 ∧
    (setWeightSnd defaultWeightsSnd .separation .posInf).separation = .posInf ∧
    defaultWeightsSnd.separation = .fin 2 := by
  decide

/-- C4 (amended): the guarded `setWeight` (second variant) leaves every weight
unchanged whenever the value is `NaN` or compares below zero (negative finite
values and `-Infinity`); `+Infinity` and the unvalidated first variant are the
exceptions recorded in `C4_counterexample`. -/
theorem C4_guard (w : WeightsJ) (b : BehaviorName) (v : JSNum)
    (h : isNaNJ v = true ∨ jsLt v (.fin 0) = true) :
    setWeightSnd w b v = w := by
  rw [setWeightSnd]
  rcases h with h | h <;> simp [h]

/-- Witness for `C4_guard`: a `NaN` weight is rejected. -/
theorem C4_guard_witness :
    setWeightSnd defaultWeightsSnd .separation .nan = defaultWeightsSnd :=
  C4_guard _ _ _ (Or.inl (by decide))

/-- C5, as stated, fails: starting from the default ranges (15, 50, 50), the
calls `setPerceptionRadius 100` then `setPerceptionRadius 25` change the
alignment : cohesion ratio from 1 : 1 to 1 : 2, because the second call scales
the hard-coded constants 15 and 50 instead of the current ranges. -/
theorem C5_counterexample :
    (setPerceptionRadiusFst 25 (setPerceptionRadiusFst 100 defaultRangesFst)).alignment *
        (setPerceptionRadiusFst 100 defaultRangesFst).cohesion ≠
      (setPerceptionRadiusFst 100 defaultRangesFst).alignment *
        (setPerceptionRadiusFst 25 (setPerceptionRadiusFst 100 defaultRangesFst)).cohesion := by
  decide

/-- C5 (amended): a single `setPerceptionRadius` call made from the initial
range configuration rescales all three ranges by the common factor
`radius / 50` and preserves the pairwise ratios. -/
theorem C5_firstCall (r : ℚ) (hr : 0 < r) :
    ∃ k : ℚ, setPerceptionRadiusFst r defaultRangesFst =
        ⟨defaultRangesFst.separation * k, defaultRangesFst.alignment * k,
         defaultRangesFst.cohesion * k⟩ ∧
      (setPerceptionRadiusFst r defaultRangesFst).separation * defaultRangesFst.alignment =
        (setPerceptionRadiusFst r defaultRangesFst).alignment * defaultRangesFst.separation ∧
      (setPerceptionRadiusFst r defaultRangesFst).alignment * defaultRangesFst.cohesion =
        (setPerceptionRadiusFst r defaultRangesFst).cohesion * defaultRangesFst.alignment := by
  refine ⟨r / 50, ?_, ?_, ?_⟩
  · simp only [setPerceptionRadiusFst, defaultRangesFst, RangesQ.mk.injEq]
    refine ⟨by ring, by ring, ?_⟩
    field_simp
  · simp only [setPerceptionRadiusFst, defaultRangesFst]
    ring
  · simp only [setPerceptionRadiusFst, defaultRangesFst]
    field_simp

/-- Witness for `C5_firstCall`: radius 100. -/
theorem C5_firstCall_witness :
    ∃ k : ℚ, setPerceptionRadiusFst 100 defaultRangesFst =
        ⟨defaultRangesFst.separation * k, defaultRangesFst.alignment * k,
         defaultRangesFst.cohesion * k⟩ ∧
      (setPerceptionRadiusFst 100 defaultRangesFst).separation * defaultRangesFst.alignment =
        (setPerceptionRadiusFst 100 defaultRangesFst).alignment * defaultRangesFst.separation ∧
      (setPerceptionRadiusFst 100 defaultRangesFst).alignment * defaultRangesFst.cohesion =
        (setPerceptionRadiusFst 100 defaultRangesFst).cohesion * defaultRangesFst.alignment :=
  C5_firstCall 100 (by norm_num)

/-- C3: the claim is right and the code is wrong.  `subdivide` places the
eight children at offsets of a full half-extent from the center (covering e.g.
[100, 300] instead of [0, 200] per axis), so the children are not exhaustive:
after inserting nine in-bounds boids near the origin the subdivision
redistributes them into children none of whose bounds contain them, the whole
population is dropped from the tree, and an in-range `queryRange` returns
nothing instead of all nine inserted boids. -/
theorem C3_lostBoids :
    nineBoids.length = 9 ∧
    (∀ b ∈ nineBoids, containsPoint (octreeRoot ⟨400, 400, 400⟩).box b.pos) ∧
    (∀ b ∈ nineBoids, dist2 b.pos ⟨0, 0, 0⟩ ≤ 100 * 100) ∧
    queryRangeF 5 t9 ⟨⟨0, 0, 0⟩, 100⟩ = [] ∧
    allBoidsF 9 t9 = [] := by
  decide

theorem insertF_leaf_small (f : ℕ) (box : BoxQ) (bs : List OBoid) (b : OBoid)
    (hc : containsPoint box b.pos) (hlen : bs.length + 1 ≤ maxBoids) :
    insertF (f + 1) (.mk box none bs) b = .mk box none (bs ++ [b]) := by
  simp only [insertF]
  rw [if_pos hc]
  rw [if_neg]
  intro h
  have := h.1
  simp only [List.length_append, List.length_cons, List.length_nil, maxBoids] at this hlen
  omega

theorem insertListF_leaf (f : ℕ) (box : BoxQ) (bs : List OBoid) :
    ∀ init : List OBoid, (∀ b ∈ bs, containsPoint box b.pos) →
      init.length + bs.length ≤ maxBoids →
      insertListF (f + 1) (.mk box none init) bs = .mk box none (init ++ bs) := by
  induction bs with
  | nil =>
    intro init _ _
    simp [insertListF]
  | cons b bs ih =>
    intro init hin hlen
    rw [insertListF, List.foldl_cons]
    rw [insertF_leaf_small f box init b (hin b (by simp))
      (by simp only [List.length_cons, maxBoids] at hlen ⊢; omega)]
    have h2 := ih (init ++ [b]) (fun x hx => hin x (by simp [hx]))
      (by simp only [List.length_append, List.length_cons, List.length_nil, maxBoids] at hlen ⊢
          omega)
    rw [insertListF] at h2
    rw [h2]
    simp

theorem redistribute_length (f : ℕ) (bs : List OBoid) (cs : List ONode) :
    (bs.foldl (fun acc bd => acc.map fun c => insertF f c bd) cs).length = cs.length := by
  induction bs generalizing cs with
  | nil => rfl
  | cons b bs ih => rw [List.foldl_cons, ih, List.length_map]

/-- C8 (amended): inserting capacity + 1 = 9 in-bounds boids into a fresh leaf
whose diagonal exceeds the minimum size makes it subdivide: afterwards it is
internal with exactly 8 children and holds no boid directly.  (The boids are
re-inserted into the children, but only those whose position lands in some
child's bounds are retained — see `C8_counterexample`.) -/
theorem C8_subdivision (f : ℕ) (box : BoxQ) (bs : List OBoid)
    (hlen : bs.length = maxBoids + 1)
    (hin : ∀ b ∈ bs, containsPoint box b.pos)
    (hdiag : minSize * minSize < diag2 box) :
    (insertListF (f + 1) (.mk box none []) bs).children.map List.length = some 8 ∧
    (insertListF (f + 1) (.mk box none []) bs).heldBoids = [] := by
  have h8 : (bs.take 8).length = 8 := by
    rw [List.length_take]
    simp only [maxBoids] at hlen
    omega
  have h1 : (bs.drop 8).length = 1 := by
    rw [List.length_drop]
    simp only [maxBoids] at hlen
    omega
  obtain ⟨b9, hb9⟩ := List.length_eq_one.mp h1
  have hsplit : bs = bs.take 8 ++ [b9] := by rw [← hb9, List.take_append_drop]
  rw [hsplit, insertListF, List.foldl_append]
  have hfirst : List.foldl (fun m b => insertF (f + 1) m b) (.mk box none []) (bs.take 8)
      = ONode.mk box none ([] ++ bs.take 8) := by
    have h := insertListF_leaf f box (bs.take 8) []
      (fun x hx => hin x (List.mem_of_mem_take hx)) (by simp [h8, maxBoids])
    rw [insertListF] at h
    exact h
  rw [hfirst]
  simp only [List.nil_append, List.foldl_cons, List.foldl_nil]
  have hb9in : containsPoint box b9.pos := hin b9 (by rw [hsplit]; simp)
  simp only [insertF]
  rw [if_pos hb9in]
  rw [if_pos (by
    refine ⟨?_, hdiag⟩
    simp [List.length_append, h8, maxBoids])]
  refine ⟨?_, rfl⟩
  simp only [ONode.children, Option.map_some', redistribute_length]
  simp [mkChildren]

/-- Witness for `C8_subdivision`: the nine central boids in the 400³ root box. -/
theorem C8_subdivision_witness :
    (insertListF 1 (.mk (nodeBox ⟨0, 0, 0⟩ ⟨400, 400, 400⟩) none []) nineBoids).children.map
        List.length = some 8 ∧
    (insertListF 1 (.mk (nodeBox ⟨0, 0, 0⟩ ⟨400, 400, 400⟩) none []) nineBoids).heldBoids = [] :=
  C8_subdivision 0 (nodeBox ⟨0, 0, 0⟩ ⟨400, 400, 400⟩) nineBoids (by decide) (by decide)
    (by decide)

/-- C8, as stated, fails in its parenthetical: after the subdivision triggered
by the nine central boids, the parent is empty and has 8 children, yet no boid
was retained by any child — "all agents having been redistributed to the
children" is false (the redistribution inserts each boid into every child and
every child's bounds miss the central region). -/
theorem C8_counterexample :
    (t9.children.map List.length = some 8 ∧ t9.heldBoids = []) ∧
    nineBoids ≠ [] ∧ allBoidsF 9 t9 = [] := by
  decide

/-- C9: `findNeighbors` never returns the querying boid (it is filtered out),
and its results are sorted by non-decreasing Euclidean distance to the
querying boid's position, for any tree, query boid, radius and fuel. -/
theorem C9_neighborOrder (f : ℕ) (t : ONode) (b : OBoid) (radius : ℚ) :
    (∀ x ∈ findNeighborsF f t b radius, x ≠ b) ∧
    List.Sorted (fun u v => rdist u.pos b.pos ≤ rdist v.pos b.pos)
      (findNeighborsF f t b radius) := by
  constructor
  · intro x hx
    rw [findNeighborsF] at hx
    have hx' := (List.mem_insertionSort _).mp hx
    have hp := List.of_mem_filter hx'
    exact of_decide_eq_true hp
  · rw [findNeighborsF]
    have hs : List.Sorted (fun u v => dist2 u.pos b.pos ≤ dist2 v.pos b.pos)
        (((queryRangeF f t ⟨b.pos, radius * (11 / 10)⟩).filter
          fun o => decide (o ≠ b)).insertionSort
            (fun u v => dist2 u.pos b.pos ≤ dist2 v.pos b.pos)) := by
      haveI : IsTotal OBoid (fun u v => dist2 u.pos b.pos ≤ dist2 v.pos b.pos) :=
        ⟨fun u v => le_total _ _⟩
      haveI : IsTrans OBoid (fun u v => dist2 u.pos b.pos ≤ dist2 v.pos b.pos) :=
        ⟨fun u v w h1 h2 => le_trans h1 h2⟩
      exact List.sorted_insertionSort _ _
    refine hs.imp fun {u v} h => ?_
    exact Real.sqrt_le_sqrt (by exact_mod_cast h)

/-- Witness for `C9_neighborOrder`: in the one-boid tree the returned neighbor
is not the querying boid. -/
theorem C9_neighborOrder_witness : farBoid ≠ qBoid :=
  (C9_neighborOrder 1 tFar qBoid 10).1 farBoid (by decide)

/-- Everything `queryRange` returns lies inside the query sphere. -/
theorem queryRangeF_mem (f : ℕ) : ∀ (t : ONode) (range : SphereQ) (b : OBoid),
    b ∈ queryRangeF f t range → sphereContains range b.pos := by
  induction f with
  | zero =>
    intro t range b hb
    simp [queryRangeF] at hb
  | succ f ih =>
    intro t range b hb
    obtain ⟨bounds, children, boids⟩ := t
    rw [queryRangeF.eq_def] at hb
    simp only at hb
    by_cases hI : intersectsSphere bounds range
    · rw [if_pos hI] at hb
      rcases List.mem_append.mp hb with h | h
      · exact of_decide_eq_true (List.mem_filter.mp h).2
      · cases children with
        | none => simp at h
        | some cs =>
          simp only at h
          rw [List.mem_flatten] at h
          obtain ⟨l, hl, hbl⟩ := h
          rw [List.mem_map] at hl
          obtain ⟨c, _, rfl⟩ := hl
          exact ih c range b hbl
    · rw [if_neg hI] at hb
      simp at hb

/-- C10: every boid returned by `findNeighbors(b, r)` lies within distance
`1.1 * r` of the querying boid (the query sphere is enlarged by 10 % and no
exact filter back to `r` follows), and the bound is attained beyond `r`: a
boid at distance 10.5 is returned for a radius-10 query. -/
theorem C10_radiusBound :
    (∀ (f : ℕ) (t : ONode) (b : OBoid) (radius : ℚ), 0 ≤ radius →
      ∀ x ∈ findNeighborsF f t b radius,
        rdist x.pos b.pos ≤ (11 / 10) * (radius : ℝ)) ∧
    (farBoid ∈ findNeighborsF 1 tFar qBoid 10 ∧
      (10 : ℝ) < rdist farBoid.pos qBoid.pos) := by
  constructor
  · intro f t b radius hr x hx
    rw [findNeighborsF] at hx
    have hx' := (List.mem_insertionSort _).mp hx
    have hmem := List.mem_of_mem_filter hx'
    have hball := queryRangeF_mem f t _ x hmem
    rw [sphereContains] at hball
    rw [rdist]
    have h2 : ((dist2 x.pos b.pos : ℚ) : ℝ)
        ≤ ((radius * (11 / 10) : ℚ) : ℝ) * ((radius * (11 / 10) : ℚ) : ℝ) := by
      exact_mod_cast hball
    calc Real.sqrt ((dist2 x.pos b.pos : ℚ) : ℝ)
        ≤ Real.sqrt (((radius * (11 / 10) : ℚ) : ℝ) * ((radius * (11 / 10) : ℚ) : ℝ)) :=
          Real.sqrt_le_sqrt h2
      _ = |((radius * (11 / 10) : ℚ) : ℝ)| := Real.sqrt_mul_self_eq_abs _
      _ = (11 / 10) * (radius : ℝ) := by
          rw [abs_of_nonneg (by exact_mod_cast mul_nonneg hr (by norm_num))]
          push_cast
          ring
  · refine ⟨by decide, ?_⟩
    rw [rdist]
    rw [show dist2 farBoid.pos qBoid.pos = 441 / 4 by decide]
    rw [show (((441 / 4 : ℚ) : ℝ)) = (21 / 2 : ℝ) ^ 2 by push_cast; norm_num]
    rw [Real.sqrt_sq (by norm_num)]
    norm_num

/-- Witness for `C10_radiusBound`: the radius-10 query in the one-boid tree. -/
theorem C10_radiusBound_witness :
    rdist farBoid.pos qBoid.pos ≤ (11 / 10) * ((10 : ℚ) : ℝ) :=
  C10_radiusBound.1 1 tFar qBoid 10 (by norm_num) farBoid (by decide)
